import Mathlib

/-!
# Helmet: the Redis driver of `core/service/redis.go`

The driver is a thin layer over the go-redis client.  The client library and the
store behind it are external to the repository, so the driver is embedded over an
arbitrary library `Lib`: one function per library entry point, acting on an
explicit environment `σ` (the network and the store).  Every library call the
driver makes is recorded in the `calls` trace of the `World`, which is how
statements such as "no new client is constructed" or "the subscription is closed
once" are expressed.

Go specifics of the embedding:
* `error` is `Option GoError` (`none` is `nil`);
* a `(T, error)` result is a pair;
* `*redis.Client` is `Option κ` (`none` is the nil pointer); calling a client
  method through a nil pointer is a run-time panic, `Outcome.panicked`;
* methods with a pointer receiver that assign to the receiver return the new
  receiver.
`HScan` and `GetDefaultRedisDriver` (configuration lookup) are not embedded.
-/

namespace Helmet

/-! ## Data model -/

/-- Errors that originate in the go-redis library: `redis.Nil`, the reply for a
missing key or field, and every other failure (transport, protocol, wrong type). -/
inductive RedisError where
  | Nil
  | Other (msg : String)
  deriving DecidableEq, Repr

/-- Go `error` values the driver can return.  `New msg` is a value allocated by
`errors.New` inside the driver, so it is never equal to an error of the library;
`Redis e` is the library's error `e`, passed on as it is. -/
inductive GoError where
  | New (msg : String)
  | Redis (e : RedisError)
  deriving DecidableEq, Repr

/-- Source: `type Message struct` of the driver. -/
structure Message where
  Channel : String
  Payload : String
  deriving DecidableEq, Repr

/-- The `redis.Message` the library delivers on a subscription. -/
structure RedisMessage where
  Channel : String
  Pattern : String
  Payload : String
  deriving DecidableEq, Repr

/-- The fields of `redis.Options` the driver fills in (durations in nanoseconds). -/
structure Options where
  Addr : String
  Password : String
  DB : Int
  PoolSize : Int
  PoolTimeout : Int
  deriving DecidableEq, Repr

/-- A go-redis command result: what `Val()` and `Err()` give. -/
structure Cmd (α : Type) where
  val : α
  err : Option RedisError
  deriving DecidableEq, Repr

/-- The go-redis entry points the driver calls, over an environment `σ`, client
handles `κ` and subscription handles `π`.  `Channel` gives the messages the Go
channel of a subscription delivers before it is closed: the model covers the
subscriptions whose channel closes after finitely many messages (one that never
closes, with a callback that never reports an error, does not return). -/
structure Lib (σ κ π : Type) where
  NewClient : Options → σ → κ × σ
  Ping : κ → σ → Cmd String × σ
  Set : κ → String → String → Int → σ → Cmd String × σ
  Get : κ → String → σ → Cmd String × σ
  Exists : κ → String → σ → Cmd Int × σ
  Del : κ → String → σ → Cmd Int × σ
  HGet : κ → String → String → σ → Cmd String × σ
  HSet : κ → String → String → String → σ → Cmd Bool × σ
  HExists : κ → String → String → σ → Cmd Bool × σ
  HDel : κ → String → String → σ → Cmd Int × σ
  HLen : κ → String → σ → Cmd Int × σ
  Publish : κ → String → String → σ → Cmd Int × σ
  Subscribe : κ → String → σ → π × σ
  Channel : π → σ → List RedisMessage × σ
  Close : π → σ → Option RedisError × σ

/-- One recorded step of the driver: a library call, or an invocation of the
subscription callback. -/
inductive Call (κ π : Type) where
  | NewClient (opt : Options)
  | Ping (c : κ)
  | Set (c : κ) (key value : String) (expiration : Int)
  | Get (c : κ) (key : String)
  | Exists (c : κ) (key : String)
  | Del (c : κ) (key : String)
  | HGet (c : κ) (key field : String)
  | HSet (c : κ) (key field value : String)
  | HExists (c : κ) (key field : String)
  | HDel (c : κ) (key field : String)
  | HLen (c : κ) (key : String)
  | Publish (c : κ) (channel message : String)
  | Subscribe (c : κ) (channel : String)
  | Channel (p : π)
  | Close (p : π)
  | callback (message : Message)
  deriving DecidableEq, Repr

/-- The environment together with the trace of the steps taken so far. -/
structure World (σ κ π : Type) where
  calls : List (Call κ π)
  env : σ

variable {σ κ π γ α : Type}

/-- Perform the library call `f`, recording it as `ev`. -/
def World.call (w : World σ κ π) (ev : Call κ π) (f : σ → α × σ) : α × World σ κ π :=
  ((f w.env).1, { calls := w.calls ++ [ev], env := (f w.env).2 })

/-- Record a step that does not touch the environment. -/
def World.record (w : World σ κ π) (ev : Call κ π) : World σ κ π :=
  { calls := w.calls ++ [ev], env := w.env }

/-- How a Go call ends: with its results, or in a run-time panic. -/
inductive Outcome (α : Type) where
  | returned (a : α)
  | panicked (msg : String)
  deriving DecidableEq, Repr

/-- The message of the run-time panic for a method call through a nil pointer. -/
def nilDereference : String :=
  "runtime error: invalid memory address or nil pointer dereference"

/-- Source: `time.Second`, in nanoseconds. -/
def Second : Int := 1000000000

/-- Source: `type Redis struct`. -/
structure Redis (κ : Type) where
  Client : Option κ
  Addr : String
  Password : String
  DB : Int
  deriving DecidableEq, Repr

/-! ## The driver -/

/-- Source: `NewRedisDriver`. -/
def NewRedisDriver (addr password : String) (db : Int) : Redis κ :=
  { Client := none, Addr := addr, Password := password, DB := db }

/-- Source: `(*Redis).Ping`. -/
def Redis.Ping (L : Lib σ κ π) (r : Redis κ) (w : World σ κ π) :
    Option GoError × World σ κ π :=
  match r.Client with
  | none => (some (GoError.New "Connection not established yet"), w)
  | some c =>
    let res := w.call (Call.Ping c) (L.Ping c)
    match res.1.err with
    | some err => (some (GoError.Redis err), res.2)
    | none => (none, res.2)

/-- Source: `(*Redis).Connect`.  The receiver is returned as the second component. -/
def Redis.Connect (L : Lib σ κ π) (r : Redis κ) (w : World σ κ π) :
    Option GoError × Redis κ × World σ κ π :=
  let first := r.Ping L w
  match first.1 with
  | none => (none, r, first.2)
  | some _ =>
    let made := first.2.call
      (Call.NewClient
        { Addr := r.Addr, Password := r.Password, DB := r.DB,
          PoolSize := 10, PoolTimeout := 30 * Second })
      (L.NewClient
        { Addr := r.Addr, Password := r.Password, DB := r.DB,
          PoolSize := 10, PoolTimeout := 30 * Second })
    let r1 : Redis κ := { r with Client := some made.1 }
    let second := r1.Ping L made.2
    match second.1 with
    | some err => (some err, r1, second.2)
    | none => (none, r1, second.2)

/-- Source: `(*Redis).Set`. -/
def Redis.Set (L : Lib σ κ π) (r : Redis κ) (key value : String) (expiration : Int)
    (w : World σ κ π) : Outcome (Bool × Option GoError) × World σ κ π :=
  match r.Client with
  | none => (Outcome.panicked nilDereference, w)
  | some c =>
    let result := w.call (Call.Set c key value expiration) (L.Set c key value expiration)
    match result.1.err with
    | some err => (Outcome.returned (false, some (GoError.Redis err)), result.2)
    | none => (Outcome.returned (decide (result.1.val = "OK"), none), result.2)

/-- Source: `(*Redis).Get`. -/
def Redis.Get (L : Lib σ κ π) (r : Redis κ) (key : String)
    (w : World σ κ π) : Outcome (String × Option GoError) × World σ κ π :=
  match r.Client with
  | none => (Outcome.panicked nilDereference, w)
  | some c =>
    let result := w.call (Call.Get c key) (L.Get c key)
    match result.1.err with
    | some err => (Outcome.returned ("", some (GoError.Redis err)), result.2)
    | none => (Outcome.returned (result.1.val, none), result.2)

/-- Source: `(*Redis).Exists`. -/
def Redis.Exists (L : Lib σ κ π) (r : Redis κ) (key : String)
    (w : World σ κ π) : Outcome (Bool × Option GoError) × World σ κ π :=
  match r.Client with
  | none => (Outcome.panicked nilDereference, w)
  | some c =>
    let result := w.call (Call.Exists c key) (L.Exists c key)
    match result.1.err with
    | some err => (Outcome.returned (false, some (GoError.Redis err)), result.2)
    | none => (Outcome.returned (decide (result.1.val > 0), none), result.2)

/-- Source: `(*Redis).Del`. -/
def Redis.Del (L : Lib σ κ π) (r : Redis κ) (key : String)
    (w : World σ κ π) : Outcome (Int × Option GoError) × World σ κ π :=
  match r.Client with
  | none => (Outcome.panicked nilDereference, w)
  | some c =>
    let result := w.call (Call.Del c key) (L.Del c key)
    match result.1.err with
    | some err => (Outcome.returned (0, some (GoError.Redis err)), result.2)
    | none => (Outcome.returned (result.1.val, none), result.2)

/-- Source: `(*Redis).HGet`. -/
def Redis.HGet (L : Lib σ κ π) (r : Redis κ) (key field : String)
    (w : World σ κ π) : Outcome (String × Option GoError) × World σ κ π :=
  match r.Client with
  | none => (Outcome.panicked nilDereference, w)
  | some c =>
    let result := w.call (Call.HGet c key field) (L.HGet c key field)
    match result.1.err with
    | some err => (Outcome.returned ("", some (GoError.Redis err)), result.2)
    | none => (Outcome.returned (result.1.val, none), result.2)

/-- Source: `(*Redis).HSet`. -/
def Redis.HSet (L : Lib σ κ π) (r : Redis κ) (key field value : String)
    (w : World σ κ π) : Outcome (Bool × Option GoError) × World σ κ π :=
  match r.Client with
  | none => (Outcome.panicked nilDereference, w)
  | some c =>
    let result := w.call (Call.HSet c key field value) (L.HSet c key field value)
    match result.1.err with
    | some err => (Outcome.returned (false, some (GoError.Redis err)), result.2)
    | none => (Outcome.returned (result.1.val, none), result.2)

/-- Source: `(*Redis).HExists`. -/
def Redis.HExists (L : Lib σ κ π) (r : Redis κ) (key field : String)
    (w : World σ κ π) : Outcome (Bool × Option GoError) × World σ κ π :=
  match r.Client with
  | none => (Outcome.panicked nilDereference, w)
  | some c =>
    let result := w.call (Call.HExists c key field) (L.HExists c key field)
    match result.1.err with
    | some err => (Outcome.returned (false, some (GoError.Redis err)), result.2)
    | none => (Outcome.returned (result.1.val, none), result.2)

/-- Source: `(*Redis).HDel`. -/
def Redis.HDel (L : Lib σ κ π) (r : Redis κ) (key field : String)
    (w : World σ κ π) : Outcome (Int × Option GoError) × World σ κ π :=
  match r.Client with
  | none => (Outcome.panicked nilDereference, w)
  | some c =>
    let result := w.call (Call.HDel c key field) (L.HDel c key field)
    match result.1.err with
    | some err => (Outcome.returned (0, some (GoError.Redis err)), result.2)
    | none => (Outcome.returned (result.1.val, none), result.2)

/-- Source: `(*Redis).HLen`. -/
def Redis.HLen (L : Lib σ κ π) (r : Redis κ) (key : String)
    (w : World σ κ π) : Outcome (Int × Option GoError) × World σ κ π :=
  match r.Client with
  | none => (Outcome.panicked nilDereference, w)
  | some c =>
    let result := w.call (Call.HLen c key) (L.HLen c key)
    match result.1.err with
    | some err => (Outcome.returned (0, some (GoError.Redis err)), result.2)
    | none => (Outcome.returned (result.1.val, none), result.2)

/-- Source: `(*Redis).HTruncate`: the library call is `Del`. -/
def Redis.HTruncate (L : Lib σ κ π) (r : Redis κ) (key : String)
    (w : World σ κ π) : Outcome (Int × Option GoError) × World σ κ π :=
  match r.Client with
  | none => (Outcome.panicked nilDereference, w)
  | some c =>
    let result := w.call (Call.Del c key) (L.Del c key)
    match result.1.err with
    | some err => (Outcome.returned (0, some (GoError.Redis err)), result.2)
    | none => (Outcome.returned (result.1.val, none), result.2)

/-- Source: `(*Redis).Publish`. -/
def Redis.Publish (L : Lib σ κ π) (r : Redis κ) (channel message : String)
    (w : World σ κ π) : Outcome (Option GoError) × World σ κ π :=
  match r.Client with
  | none => (Outcome.panicked nilDereference, w)
  | some c =>
    let result := w.call (Call.Publish c channel message) (L.Publish c channel message)
    match result.1.err with
    | some err => (Outcome.returned (some (GoError.Redis err)), result.2)
    | none => (Outcome.returned none, result.2)

/-- Source: the `Message` literal built in `(*Redis).Subscribe` from an inbound
`redis.Message`. -/
def toMessage (msg : RedisMessage) : Message :=
  { Channel := msg.Channel, Payload := msg.Payload }

/-- Source: the `for msg := range ch` loop of `(*Redis).Subscribe`, over the
messages the channel delivers before it is closed.  The callback is a Go closure:
it carries its own state `γ`. -/
def Redis.subscribeLoop (callback : Message → γ → Option GoError × γ) :
    List RedisMessage → World σ κ π → γ → Option GoError × World σ κ π × γ
  | [], w, g => (none, w, g)
  | msg :: rest, w, g =>
    let message : Message := toMessage msg
    let res := callback message g
    match res.1 with
    | some err => (some err, w.record (Call.callback message), res.2)
    | none => Redis.subscribeLoop callback rest (w.record (Call.callback message)) res.2

/-- Source: `(*Redis).Subscribe`.  The deferred `pubsub.Close()` runs after the
loop has produced the return value, on either way out of the loop. -/
def Redis.Subscribe (L : Lib σ κ π) (r : Redis κ) (channel : String)
    (callback : Message → γ → Option GoError × γ) (w : World σ κ π) (g : γ) :
    Outcome (Option GoError) × World σ κ π × γ :=
  match r.Client with
  | none => (Outcome.panicked nilDereference, w, g)
  | some c =>
    let pubsub := w.call (Call.Subscribe c channel) (L.Subscribe c channel)
    let ch := pubsub.2.call (Call.Channel pubsub.1) (L.Channel pubsub.1)
    let looped := Redis.subscribeLoop callback ch.1 ch.2 g
    let closed := looped.2.1.call (Call.Close pubsub.1) (L.Close pubsub.1)
    (Outcome.returned looped.1, closed.2, looped.2.2)

/-! ## Observations on traces -/

/-- Whether a step is a client construction, `redis.NewClient`. -/
def Call.isNewClient : Call κ π → Bool
  | Call.NewClient _ => true
  | _ => false

/-- Whether a step releases a subscription, `pubsub.Close()`. -/
def Call.isClose : Call κ π → Bool
  | Call.Close _ => true
  | _ => false

/-- The number of clients constructed in a trace. -/
def constructions (calls : List (Call κ π)) : Nat :=
  calls.countP Call.isNewClient

/-- The number of subscriptions released in a trace. -/
def releases (calls : List (Call κ π)) : Nat :=
  calls.countP Call.isClose

/-- The state of the callback after it has handled the messages `ms`, in order. -/
def stateAfter (callback : Message → γ → Option GoError × γ) (ms : List Message) (g : γ) : γ :=
  ms.foldl (fun st m => (callback m st).2) g

/-- What the callback answers to the message at index `i` of `ms`, having handled
the messages before it (`none` when it reports no error, or there is no such
message). -/
def verdict (callback : Message → γ → Option GoError × γ) (ms : List Message) (g : γ)
    (i : Nat) : Option GoError :=
  match ms[i]? with
  | some m => (callback m (stateAfter callback (ms.take i) g)).1
  | none => none

/-- The pair result `out` passes the store's error on verbatim: when the store
command reported `e`, `out` is the zero value with exactly `e`; and `out` carries
no error only when the store command reported none. -/
def Verbatim (zero : α) (err : Option RedisError) (out : Outcome (α × Option GoError)) : Prop :=
  (∀ e, err = some e → out = Outcome.returned (zero, some (GoError.Redis e))) ∧
  (∀ v, out = Outcome.returned (v, none) → err = none)

/-- The same for an operation that returns only an error. -/
def VerbatimError (err : Option RedisError) (out : Outcome (Option GoError)) : Prop :=
  (∀ e, err = some e → out = Outcome.returned (some (GoError.Redis e))) ∧
  (out = Outcome.returned none → err = none)

/-! ## A reference store -/

/-- What a key of the reference store holds: a string or a hash. -/
inductive Entry where
  | str (v : String)
  | hash (fields : List (String × String))
  deriving DecidableEq, Repr

/-- Modelled from the spec: the remote store behind the go-redis client, which is
external to the repository.  `up` says whether the store is reachable, `data` is
the keyspace, `feed` gives per channel the messages a subscription will receive
before its Go channel is closed, `clients` counts the handles handed out,
`subscriptions` lists the channels of the subscriptions that are open.  No clock:
entries do not expire. -/
structure Store where
  up : Bool
  data : String → Option Entry
  feed : String → List RedisMessage
  clients : Nat
  subscriptions : List String

/-- The value of field `f` in a hash. -/
def fieldGet : List (String × String) → String → Option String
  | [], _ => none
  | (f', v) :: rest, f => if f' = f then some v else fieldGet rest f

/-- The hash with field `f` set to `v`: updated in place, or added. -/
def fieldSet : List (String × String) → String → String → List (String × String)
  | [], f, v => [(f, v)]
  | (f', v') :: rest, f, v =>
    if f' = f then (f', v) :: rest else (f', v') :: fieldSet rest f v

/-- The hash without field `f`. -/
def fieldDel (fields : List (String × String)) (f : String) : List (String × String) :=
  fields.filter fun p => p.1 ≠ f

/-- The keyspace with `key` bound to `e` (or unbound, for `none`). -/
def Store.put (s : Store) (key : String) (e : Option Entry) : Store :=
  { s with data := fun k => if k = key then e else s.data k }

/-- The transport error of an unreachable store. -/
def refused : RedisError := RedisError.Other "dial tcp: connect: connection refused"

/-- The error the store answers to a command on a key of the wrong type. -/
def wrongType : RedisError :=
  RedisError.Other "WRONGTYPE Operation against a key holding the wrong kind of value"

/-- The reply of a command that could not reach the store. -/
def unreachableReply (zero : α) (s : Store) : Cmd α × Store :=
  ({ val := zero, err := some refused }, s)

/-- Modelled from the spec: the go-redis client over the reference store, with the
store's documented replies: `PONG`, `OK`, the miss error `redis.Nil` for an absent
key or field, counts of removed keys and fields, `HSET` answering whether the
field is new, `HLEN` answering 0 for an absent key.  Client handles are numbers,
a subscription handle is its channel name; `Subscribe` opens a subscription and
`Close` releases it. -/
def memLib : Lib Store Nat String where
  NewClient := fun _ s => (s.clients, { s with clients := s.clients + 1 })
  Ping := fun _ s =>
    if s.up then ({ val := "PONG", err := none }, s) else unreachableReply "" s
  Set := fun _ key value _ s =>
    if s.up then ({ val := "OK", err := none }, s.put key (some (Entry.str value)))
    else unreachableReply "" s
  Get := fun _ key s =>
    if s.up then
      match s.data key with
      | none => ({ val := "", err := some RedisError.Nil }, s)
      | some (Entry.str v) => ({ val := v, err := none }, s)
      | some (Entry.hash _) => ({ val := "", err := some wrongType }, s)
    else unreachableReply "" s
  Exists := fun _ key s =>
    if s.up then
      match s.data key with
      | none => ({ val := 0, err := none }, s)
      | some _ => ({ val := 1, err := none }, s)
    else unreachableReply 0 s
  Del := fun _ key s =>
    if s.up then
      match s.data key with
      | none => ({ val := 0, err := none }, s)
      | some _ => ({ val := 1, err := none }, s.put key none)
    else unreachableReply 0 s
  HGet := fun _ key field s =>
    if s.up then
      match s.data key with
      | none => ({ val := "", err := some RedisError.Nil }, s)
      | some (Entry.str _) => ({ val := "", err := some wrongType }, s)
      | some (Entry.hash fields) =>
        match fieldGet fields field with
        | none => ({ val := "", err := some RedisError.Nil }, s)
        | some v => ({ val := v, err := none }, s)
    else unreachableReply "" s
  HSet := fun _ key field value s =>
    if s.up then
      match s.data key with
      | none => ({ val := true, err := none }, s.put key (some (Entry.hash [(field, value)])))
      | some (Entry.str _) => ({ val := false, err := some wrongType }, s)
      | some (Entry.hash fields) =>
        ({ val := (fieldGet fields field).isNone, err := none },
          s.put key (some (Entry.hash (fieldSet fields field value))))
    else unreachableReply false s
  HExists := fun _ key field s =>
    if s.up then
      match s.data key with
      | none => ({ val := false, err := none }, s)
      | some (Entry.str _) => ({ val := false, err := some wrongType }, s)
      | some (Entry.hash fields) => ({ val := (fieldGet fields field).isSome, err := none }, s)
    else unreachableReply false s
  HDel := fun _ key field s =>
    if s.up then
      match s.data key with
      | none => ({ val := 0, err := none }, s)
      | some (Entry.str _) => ({ val := 0, err := some wrongType }, s)
      | some (Entry.hash fields) =>
        match fieldGet fields field with
        | none => ({ val := 0, err := none }, s)
        | some _ =>
          ({ val := 1, err := none },
            s.put key
              (if (fieldDel fields field).isEmpty then none
               else some (Entry.hash (fieldDel fields field))))
    else unreachableReply 0 s
  HLen := fun _ key s =>
    if s.up then
      match s.data key with
      | none => ({ val := 0, err := none }, s)
      | some (Entry.str _) => ({ val := 0, err := some wrongType }, s)
      | some (Entry.hash fields) => ({ val := (fields.length : Int), err := none }, s)
    else unreachableReply 0 s
  Publish := fun _ _ _ s =>
    if s.up then ({ val := 0, err := none }, s) else unreachableReply 0 s
  Subscribe := fun _ channel s =>
    (channel, { s with subscriptions := channel :: s.subscriptions })
  Channel := fun p s => (s.feed p, s)
  Close := fun p s => (none, { s with subscriptions := s.subscriptions.erase p })

/-- Whether field `f` is present in the hash at `key` of the reference store. -/
def Store.hasField (s : Store) (key f : String) : Bool :=
  match s.data key with
  | some (Entry.hash fields) => (fieldGet fields f).isSome
  | _ => false

/-- A reachable store with nothing in it. -/
def emptyStore : Store :=
  { up := true, data := fun _ => none, feed := fun _ => [], clients := 0,
    subscriptions := [] }

/-- An unreachableReply store. -/
def downStore : Store :=
  { up := false, data := fun _ => none, feed := fun _ => [], clients := 0,
    subscriptions := [] }

/-- A world with an empty trace. -/
def World.start (s : σ) : World σ κ π := { calls := [], env := s }

/-- The options `Connect` builds the client from. -/
def connectOptions (r : Redis κ) : Options :=
  { Addr := r.Addr, Password := r.Password, DB := r.DB,
    PoolSize := 10, PoolTimeout := 30 * Second }

/-- A reachable store whose channel "news" delivers three messages before it is
closed. -/
def newsStore : Store :=
  { up := true, data := fun _ => none,
    feed := fun channel =>
      if channel = "news" then
        [{ Channel := "news", Pattern := "", Payload := "a" },
         { Channel := "news", Pattern := "", Payload := "stop" },
         { Channel := "news", Pattern := "", Payload := "c" }]
      else [],
    clients := 1, subscriptions := [] }

/-- A callback that counts the messages it has seen and reports an error on the
payload "stop". -/
def stopHandler (m : Message) (seen : Nat) : Option GoError × Nat :=
  (if m.Payload = "stop" then some (GoError.New "stop") else none, seen + 1)

/-- A driver holding the client handle 0. -/
def connected : Redis Nat :=
  { Client := some 0, Addr := "localhost:6379", Password := "", DB := 0 }

/-- A reachable store holding the hash "h" with the single field "f". -/
def hashStore : Store :=
  { up := true,
    data := fun key => if key = "h" then some (Entry.hash [("f", "old")]) else none,
    feed := fun _ => [], clients := 1, subscriptions := [] }

/-! ## Connection manager -/

/-- C7: `Ping` returns the not-connected error exactly when the driver has no
handle, and then makes no call to the store (the world is unchanged); with a handle
`c` it makes one `Ping` round trip and returns exactly that round trip's error, or
none. -/
theorem Ping_notConnected_iff (L : Lib σ κ π) (r : Redis κ) (w : World σ κ π) :
    ((r.Ping L w).1 = some (GoError.New "Connection not established yet") ↔
        r.Client = none) ∧
    (r.Client = none →
        r.Ping L w = (some (GoError.New "Connection not established yet"), w)) ∧
    (∀ c, r.Client = some c →
        (r.Ping L w).1 = ((L.Ping c w.env).1.err).map GoError.Redis ∧
        (r.Ping L w).2 =
          { calls := w.calls ++ [Call.Ping c], env := (L.Ping c w.env).2 }) := by
  cases hc : r.Client with
  | none => simp [Redis.Ping, hc]
  | some c =>
    cases he : (L.Ping c w.env).1.err <;>
      simp [Redis.Ping, hc, World.call, he]

/-- Witness for C7 on the reference store: a fresh driver is not connected, and a
driver holding a handle gets the store's answer. -/
theorem Ping_notConnected_iff_witness :
    (NewRedisDriver "localhost:6379" "" 0 : Redis Nat).Ping memLib (World.start emptyStore)
        = (some (GoError.New "Connection not established yet"), World.start emptyStore) ∧
    (({ Client := some 0, Addr := "localhost:6379", Password := "", DB := 0 } :
        Redis Nat).Ping memLib (World.start downStore)).1 = some (GoError.Redis refused) :=
  ⟨(Ping_notConnected_iff memLib _ _).2.1 rfl,
   ((Ping_notConnected_iff memLib _ (World.start downStore)).2.2 0 rfl).1⟩

theorem constructions_append (xs ys : List (Call κ π)) :
    constructions (xs ++ ys) = constructions xs + constructions ys := by
  simp [constructions, List.countP_append]

theorem Ping_constructions (L : Lib σ κ π) (r : Redis κ) (w : World σ κ π) :
    constructions (r.Ping L w).2.calls = constructions w.calls := by
  cases hc : r.Client with
  | none => simp [Redis.Ping, hc]
  | some c =>
    cases he : (L.Ping c w.env).1.err <;>
      simp [Redis.Ping, hc, World.call, he, constructions, List.countP_append,
        List.countP_cons, Call.isNewClient]

theorem Connect_of_ping_ok (L : Lib σ κ π) (r : Redis κ) (w : World σ κ π)
    (h : (r.Ping L w).1 = none) : r.Connect L w = (none, r, (r.Ping L w).2) := by
  simp [Redis.Connect, h]

theorem Ping_some (L : Lib σ κ π) (r : Redis κ) (w : World σ κ π) (c : κ)
    (hc : r.Client = some c) :
    r.Ping L w = (((L.Ping c w.env).1.err).map GoError.Redis,
      { calls := w.calls ++ [Call.Ping c], env := (L.Ping c w.env).2 }) := by
  cases he : (L.Ping c w.env).1.err <;> simp [Redis.Ping, hc, World.call, he]

theorem Connect_of_ping_err (L : Lib σ κ π) (r : Redis κ) (w : World σ κ π) (e : GoError)
    (h : (r.Ping L w).1 = some e) :
    r.Connect L w =
      (((L.Ping (L.NewClient (connectOptions r) (r.Ping L w).2.env).1
            (L.NewClient (connectOptions r) (r.Ping L w).2.env).2).1.err).map GoError.Redis,
        { r with Client := some (L.NewClient (connectOptions r) (r.Ping L w).2.env).1 },
        { calls := (r.Ping L w).2.calls ++
            [Call.NewClient (connectOptions r),
             Call.Ping (L.NewClient (connectOptions r) (r.Ping L w).2.env).1],
          env := (L.Ping (L.NewClient (connectOptions r) (r.Ping L w).2.env).1
            (L.NewClient (connectOptions r) (r.Ping L w).2.env).2).2 }) := by
  unfold Redis.Connect
  simp only [h]
  rw [Ping_some L _ _ (L.NewClient (connectOptions r) (r.Ping L w).2.env).1 rfl]
  cases he : (L.Ping (L.NewClient (connectOptions r) (r.Ping L w).2.env).1
      (L.NewClient (connectOptions r) (r.Ping L w).2.env).2).1.err <;>
    simp [World.call, connectOptions] at he ⊢ <;> simp [he]

theorem Connect_constructions_of_ping_err (L : Lib σ κ π) (r : Redis κ) (w : World σ κ π)
    (e : GoError) (h : (r.Ping L w).1 = some e) :
    constructions (r.Connect L w).2.2.calls = constructions w.calls + 1 := by
  rw [Connect_of_ping_err L r w e h]
  simp [constructions_append, Ping_constructions]
  simp [constructions, Call.isNewClient]

/-- C1: `Connect` is idempotent.  In every state where `Ping` succeeds, `Connect`
returns no error, leaves the driver (handle, Addr, Password, DB) as it was, does
nothing but that health check and constructs no client.  Consequently, when the
store stays healthy (the health check that opens the second call succeeds), the
second of two consecutive `Connect` calls returns no error, changes nothing and
constructs nothing, so the two calls construct at most one client, and exactly one
when the driver was not connected before the first call. -/
theorem Connect_idempotent (L : Lib σ κ π) (r : Redis κ) (w : World σ κ π) :
    ((r.Ping L w).1 = none →
        (r.Connect L w).1 = none ∧ (r.Connect L w).2.1 = r ∧
        (r.Connect L w).2.2 = (r.Ping L w).2 ∧
        constructions (r.Connect L w).2.2.calls = constructions w.calls) ∧
    (((r.Connect L w).2.1.Ping L (r.Connect L w).2.2).1 = none →
        ((r.Connect L w).2.1.Connect L (r.Connect L w).2.2).1 = none ∧
        ((r.Connect L w).2.1.Connect L (r.Connect L w).2.2).2.1 = (r.Connect L w).2.1 ∧
        constructions ((r.Connect L w).2.1.Connect L (r.Connect L w).2.2).2.2.calls
          = constructions (r.Connect L w).2.2.calls ∧
        constructions ((r.Connect L w).2.1.Connect L (r.Connect L w).2.2).2.2.calls
          ≤ constructions w.calls + 1 ∧
        ((r.Ping L w).1 ≠ none →
          constructions ((r.Connect L w).2.1.Connect L (r.Connect L w).2.2).2.2.calls
            = constructions w.calls + 1)) := by
  refine ⟨fun h => ?_, fun h2 => ?_⟩
  · rw [Connect_of_ping_ok L r w h]
    exact ⟨rfl, rfl, rfl, Ping_constructions L r w⟩
  · have hsecond := Connect_of_ping_ok L _ _ h2
    have hsame : constructions ((r.Connect L w).2.1.Connect L (r.Connect L w).2.2).2.2.calls
        = constructions (r.Connect L w).2.2.calls := by
      rw [hsecond]; exact Ping_constructions L _ _
    refine ⟨by rw [hsecond], by rw [hsecond], hsame, ?_, ?_⟩
    · rw [hsame]
      cases h1 : (r.Ping L w).1 with
      | none => rw [Connect_of_ping_ok L r w h1]; simp [Ping_constructions]
      | some e => rw [Connect_constructions_of_ping_err L r w e h1]
    · intro h1
      rw [hsame]
      cases h1' : (r.Ping L w).1 with
      | none => exact absurd h1' h1
      | some e => exact Connect_constructions_of_ping_err L r w e h1'

/-- Witness for C1 on the reference store: a fresh driver connected twice to a
reachable store constructs one client. -/
theorem Connect_idempotent_witness :
    constructions
      (((NewRedisDriver "localhost:6379" "" 0 : Redis Nat).Connect memLib
          (World.start emptyStore)).2.1.Connect memLib
        ((NewRedisDriver "localhost:6379" "" 0 : Redis Nat).Connect memLib
          (World.start emptyStore)).2.2).2.2.calls
      = constructions (World.start emptyStore : World Store Nat String).calls + 1 :=
  ((Connect_idempotent memLib (NewRedisDriver "localhost:6379" "" 0)
      (World.start emptyStore)).2 rfl).2.2.2.2 (by decide)

/-- C2 as stated fails: on an unreachableReply store a fresh driver's `Connect` returns
the health check's error, and the client it constructed is installed as the
driver's handle all the same. -/
theorem Connect_failure_counterexample :
    ((NewRedisDriver "localhost:6379" "" 0 : Redis Nat).Connect memLib
        (World.start downStore)).1 = some (GoError.Redis refused) ∧
    ((NewRedisDriver "localhost:6379" "" 0 : Redis Nat).Connect memLib
        (World.start downStore)).2.1.Client = some 0 ∧
    ((NewRedisDriver "localhost:6379" "" 0 : Redis Nat).Connect memLib
        (World.start downStore)).2.1.Client ≠ none := by
  refine ⟨rfl, rfl, ?_⟩
  decide

/-- C2, amended: when the opening health check fails and the health check made
after constructing the new client `c` fails with the library error `e`, `Connect`
returns exactly `e`, and the driver it leaves is the old one with `c` installed as
its handle (Addr, Password and DB unchanged). -/
theorem Connect_failure_returns_error (L : Lib σ κ π) (r : Redis κ) (w : World σ κ π)
    (e : RedisError)
    (h1 : (r.Ping L w).1 ≠ none)
    (h2 : (L.Ping (L.NewClient (connectOptions r) (r.Ping L w).2.env).1
            (L.NewClient (connectOptions r) (r.Ping L w).2.env).2).1.err = some e) :
    (r.Connect L w).1 = some (GoError.Redis e) ∧
    (r.Connect L w).2.1 =
      { Client := some (L.NewClient (connectOptions r) (r.Ping L w).2.env).1,
        Addr := r.Addr, Password := r.Password, DB := r.DB } := by
  cases h1' : (r.Ping L w).1 with
  | none => exact absurd h1' h1
  | some e1 =>
    rw [Connect_of_ping_err L r w e1 h1', h2]
    exact ⟨rfl, rfl⟩

/-- Witness for the amended C2: a fresh driver against an unreachableReply store. -/
theorem Connect_failure_returns_error_witness :
    ((NewRedisDriver "localhost:6379" "" 0 : Redis Nat).Connect memLib
        (World.start downStore)).1 = some (GoError.Redis refused) ∧
    ((NewRedisDriver "localhost:6379" "" 0 : Redis Nat).Connect memLib
        (World.start downStore)).2.1 =
      { Client := some 0, Addr := "localhost:6379", Password := "", DB := 0 } :=
  Connect_failure_returns_error memLib (NewRedisDriver "localhost:6379" "" 0)
    (World.start downStore) refused (by decide) rfl

/-! ## Scalar and hash operations -/

/-- C3 as stated fails: `Get` on a fresh driver (no handle) returns no result, it
ends in the nil-pointer panic. -/
theorem absent_handle_counterexample :
    ((NewRedisDriver "localhost:6379" "" 0 : Redis Nat).Get memLib "k"
        (World.start emptyStore)).1 = Outcome.panicked nilDereference ∧
    ¬ ∃ v e, ((NewRedisDriver "localhost:6379" "" 0 : Redis Nat).Get memLib "k"
        (World.start emptyStore)).1 = Outcome.returned (v, some e) := by
  refine ⟨rfl, ?_⟩
  rintro ⟨v, e, h⟩
  simp [Redis.Get, NewRedisDriver] at h

/-- C3, amended: on a driver whose handle is absent each of Set, Get, Exists, Del,
HGet, HSet, HExists, HDel, HLen and HTruncate, for every argument, returns no
result: the call ends in the nil-pointer run-time panic, and no command has been
issued to the store (the world is unchanged). -/
theorem absent_handle_panics (L : Lib σ κ π) (r : Redis κ) (w : World σ κ π)
    (key field value : String) (expiration : Int) (h : r.Client = none) :
    r.Set L key value expiration w = (Outcome.panicked nilDereference, w) ∧
    r.Get L key w = (Outcome.panicked nilDereference, w) ∧
    r.Exists L key w = (Outcome.panicked nilDereference, w) ∧
    r.Del L key w = (Outcome.panicked nilDereference, w) ∧
    r.HGet L key field w = (Outcome.panicked nilDereference, w) ∧
    r.HSet L key field value w = (Outcome.panicked nilDereference, w) ∧
    r.HExists L key field w = (Outcome.panicked nilDereference, w) ∧
    r.HDel L key field w = (Outcome.panicked nilDereference, w) ∧
    r.HLen L key w = (Outcome.panicked nilDereference, w) ∧
    r.HTruncate L key w = (Outcome.panicked nilDereference, w) := by
  simp [Redis.Set, Redis.Get, Redis.Exists, Redis.Del, Redis.HGet, Redis.HSet,
    Redis.HExists, Redis.HDel, Redis.HLen, Redis.HTruncate, h]

/-- Witness for the amended C3: a fresh driver over the reference store. -/
theorem absent_handle_panics_witness :
    (NewRedisDriver "localhost:6379" "" 0 : Redis Nat).HSet memLib "h" "f" "v"
        (World.start emptyStore) = (Outcome.panicked nilDereference, World.start emptyStore) :=
  (absent_handle_panics memLib (NewRedisDriver "localhost:6379" "" 0)
    (World.start emptyStore) "h" "f" "v" 0 rfl).2.2.2.2.2.1

/-- C6: with a handle `c`, each of Set, Get, Exists, Del, HGet, HSet, HExists, HDel,
HLen, HTruncate and Publish passes the error of its store command on verbatim:
when the command reported `e` the operation returns the zero value of its result
type (false, "" or 0) with exactly `e`, and it returns a nil error only when the
command reported none.  In particular a miss (`redis.Nil`) on Get or HGet comes
back as `("", redis.Nil)`, never as `("", nil)`. -/
theorem errors_propagate_verbatim (L : Lib σ κ π) (r : Redis κ) (w : World σ κ π) (c : κ)
    (key field value channel message : String) (expiration : Int)
    (hc : r.Client = some c) :
    Verbatim false (L.Set c key value expiration w.env).1.err
      (r.Set L key value expiration w).1 ∧
    Verbatim "" (L.Get c key w.env).1.err (r.Get L key w).1 ∧
    Verbatim false (L.Exists c key w.env).1.err (r.Exists L key w).1 ∧
    Verbatim 0 (L.Del c key w.env).1.err (r.Del L key w).1 ∧
    Verbatim "" (L.HGet c key field w.env).1.err (r.HGet L key field w).1 ∧
    Verbatim false (L.HSet c key field value w.env).1.err (r.HSet L key field value w).1 ∧
    Verbatim false (L.HExists c key field w.env).1.err (r.HExists L key field w).1 ∧
    Verbatim 0 (L.HDel c key field w.env).1.err (r.HDel L key field w).1 ∧
    Verbatim 0 (L.HLen c key w.env).1.err (r.HLen L key w).1 ∧
    Verbatim 0 (L.Del c key w.env).1.err (r.HTruncate L key w).1 ∧
    VerbatimError (L.Publish c channel message w.env).1.err
      (r.Publish L channel message w).1 ∧
    ((L.Get c key w.env).1.err = some RedisError.Nil →
      (r.Get L key w).1 = Outcome.returned ("", some (GoError.Redis RedisError.Nil)) ∧
      (r.Get L key w).1 ≠ Outcome.returned ("", none)) ∧
    ((L.HGet c key field w.env).1.err = some RedisError.Nil →
      (r.HGet L key field w).1
        = Outcome.returned ("", some (GoError.Redis RedisError.Nil)) ∧
      (r.HGet L key field w).1 ≠ Outcome.returned ("", none)) := by
  refine ⟨?_, ?_, ?_, ?_, ?_, ?_, ?_, ?_, ?_, ?_, ?_, ?_, ?_⟩
  · cases he : (L.Set c key value expiration w.env).1.err <;>
      simp [Redis.Set, hc, World.call, he, Verbatim]
  · cases he : (L.Get c key w.env).1.err <;>
      simp [Redis.Get, hc, World.call, he, Verbatim]
  · cases he : (L.Exists c key w.env).1.err <;>
      simp [Redis.Exists, hc, World.call, he, Verbatim]
  · cases he : (L.Del c key w.env).1.err <;>
      simp [Redis.Del, hc, World.call, he, Verbatim]
  · cases he : (L.HGet c key field w.env).1.err <;>
      simp [Redis.HGet, hc, World.call, he, Verbatim]
  · cases he : (L.HSet c key field value w.env).1.err <;>
      simp [Redis.HSet, hc, World.call, he, Verbatim]
  · cases he : (L.HExists c key field w.env).1.err <;>
      simp [Redis.HExists, hc, World.call, he, Verbatim]
  · cases he : (L.HDel c key field w.env).1.err <;>
      simp [Redis.HDel, hc, World.call, he, Verbatim]
  · cases he : (L.HLen c key w.env).1.err <;>
      simp [Redis.HLen, hc, World.call, he, Verbatim]
  · cases he : (L.Del c key w.env).1.err <;>
      simp [Redis.HTruncate, hc, World.call, he, Verbatim]
  · cases he : (L.Publish c channel message w.env).1.err <;>
      simp [Redis.Publish, hc, World.call, he, VerbatimError]
  · intro he
    simp [Redis.Get, hc, World.call, he]
  · intro he
    simp [Redis.HGet, hc, World.call, he]

/-- Witness for C6 on the reference store: `Get` of an absent key returns the miss
error with the empty string. -/
theorem errors_propagate_verbatim_witness :
    (({ Client := some 0, Addr := "localhost:6379", Password := "", DB := 0 } :
        Redis Nat).Get memLib "k" (World.start emptyStore)).1
      = Outcome.returned ("", some (GoError.Redis RedisError.Nil)) :=
  ((errors_propagate_verbatim memLib
      { Client := some 0, Addr := "localhost:6379", Password := "", DB := 0 }
      (World.start emptyStore) 0 "k" "f" "v" "ch" "m" 0 rfl).2.2.2.2.2.2.2.2.2.2.2.1 rfl).1

/-- C10: with a handle `c`, when the store's `Set` command reports no error, `Set`
returns (true, nil) exactly when the reply is "OK" and (false, nil) for any other
reply; when the command reports the error `e`, `Set` returns (false, e). -/
theorem Set_success_flag (L : Lib σ κ π) (r : Redis κ) (w : World σ κ π) (c : κ)
    (key value : String) (expiration : Int) (hc : r.Client = some c) :
    ((L.Set c key value expiration w.env).1.err = none →
      ((r.Set L key value expiration w).1 = Outcome.returned (true, none) ↔
        (L.Set c key value expiration w.env).1.val = "OK") ∧
      ((L.Set c key value expiration w.env).1.val ≠ "OK" →
        (r.Set L key value expiration w).1 = Outcome.returned (false, none))) ∧
    (∀ e, (L.Set c key value expiration w.env).1.err = some e →
      (r.Set L key value expiration w).1
        = Outcome.returned (false, some (GoError.Redis e))) := by
  refine ⟨fun he => ?_, fun e he => ?_⟩
  · simp [Redis.Set, hc, World.call, he]
  · simp [Redis.Set, hc, World.call, he]

/-- Witness for C10 on the reference store, whose `Set` replies "OK". -/
theorem Set_success_flag_witness :
    (({ Client := some 0, Addr := "localhost:6379", Password := "", DB := 0 } :
        Redis Nat).Set memLib "k" "v" 0 (World.start emptyStore)).1
      = Outcome.returned (true, none) :=
  (((Set_success_flag memLib
      { Client := some 0, Addr := "localhost:6379", Password := "", DB := 0 }
      (World.start emptyStore) 0 "k" "v" 0 rfl).1 rfl).1).2 rfl

/-! ## Publish/subscribe dispatcher -/

theorem verdict_zero (cb : Message → γ → Option GoError × γ) (m : Message)
    (ms : List Message) (g : γ) : verdict cb (m :: ms) g 0 = (cb m g).1 := by
  simp [verdict, stateAfter]

theorem verdict_succ (cb : Message → γ → Option GoError × γ) (m : Message)
    (ms : List Message) (g : γ) (i : Nat) :
    verdict cb (m :: ms) g (i + 1) = verdict cb ms (cb m g).2 i := by
  simp [verdict, stateAfter]

theorem stateAfter_cons (cb : Message → γ → Option GoError × γ) (m : Message)
    (ms : List Message) (g : γ) :
    stateAfter cb (m :: ms) g = stateAfter cb ms (cb m g).2 := by
  simp [stateAfter]

theorem subscribeLoop_cons (cb : Message → γ → Option GoError × γ) (msg : RedisMessage)
    (rest : List RedisMessage) (w : World σ κ π) (g : γ) :
    Redis.subscribeLoop cb (msg :: rest) w g =
      match (cb (toMessage msg) g).1 with
      | some err =>
        (some err, w.record (Call.callback (toMessage msg)), (cb (toMessage msg) g).2)
      | none =>
        Redis.subscribeLoop cb rest (w.record (Call.callback (toMessage msg)))
          (cb (toMessage msg) g).2 := by
  simp only [Redis.subscribeLoop]

/-- The loop when the callback never reports an error: it is called on every
message, in order. -/
theorem subscribeLoop_all (cb : Message → γ → Option GoError × γ) :
    ∀ (inbound : List RedisMessage) (w : World σ κ π) (g : γ),
      (∀ i, i < (inbound.map toMessage).length →
        verdict cb (inbound.map toMessage) g i = none) →
      Redis.subscribeLoop cb inbound w g =
        (none,
          { calls := w.calls ++ (inbound.map toMessage).map Call.callback, env := w.env },
          stateAfter cb (inbound.map toMessage) g)
  | [], w, g, _ => by simp [Redis.subscribeLoop, stateAfter]
  | msg :: rest, w, g, h => by
    have h0 : (cb (toMessage msg) g).1 = none := by
      have := h 0 (by simp)
      rwa [List.map_cons, verdict_zero] at this
    have hrest : ∀ i, i < (rest.map toMessage).length →
        verdict cb (rest.map toMessage) (cb (toMessage msg) g).2 i = none := by
      intro i hi
      have := h (i + 1) (by simpa using hi)
      rwa [List.map_cons, verdict_succ] at this
    have ih := subscribeLoop_all cb rest (w.record (Call.callback (toMessage msg)))
      (cb (toMessage msg) g).2 hrest
    have hstep : Redis.subscribeLoop cb (msg :: rest) w g =
        Redis.subscribeLoop cb rest (w.record (Call.callback (toMessage msg)))
          (cb (toMessage msg) g).2 := by
      rw [subscribeLoop_cons, h0]
    rw [hstep, ih]
    simp [World.record, stateAfter_cons]

/-- The loop when the callback first reports an error at index `k`: it is called
on the messages up to and including that one, and the error is the result. -/
theorem subscribeLoop_stop (cb : Message → γ → Option GoError × γ) :
    ∀ (inbound : List RedisMessage) (w : World σ κ π) (g : γ) (k : Nat) (e : GoError),
      k < (inbound.map toMessage).length →
      (∀ i, i < k → verdict cb (inbound.map toMessage) g i = none) →
      verdict cb (inbound.map toMessage) g k = some e →
      Redis.subscribeLoop cb inbound w g =
        (some e,
          { calls := w.calls ++ ((inbound.map toMessage).take (k + 1)).map Call.callback,
            env := w.env },
          stateAfter cb ((inbound.map toMessage).take (k + 1)) g)
  | [], _, _, _, _, hk, _, _ => by simp at hk
  | msg :: rest, w, g, 0, e, _, _, hv => by
    rw [List.map_cons, verdict_zero] at hv
    rw [subscribeLoop_cons, hv]
    simp [World.record, stateAfter]
  | msg :: rest, w, g, k + 1, e, hk, hbefore, hv => by
    have h0 : (cb (toMessage msg) g).1 = none := by
      have := hbefore 0 (by omega)
      rwa [List.map_cons, verdict_zero] at this
    have hrest : ∀ i, i < k →
        verdict cb (rest.map toMessage) (cb (toMessage msg) g).2 i = none := by
      intro i hi
      have := hbefore (i + 1) (by omega)
      rwa [List.map_cons, verdict_succ] at this
    rw [List.map_cons, verdict_succ] at hv
    have ih := subscribeLoop_stop cb rest (w.record (Call.callback (toMessage msg)))
      (cb (toMessage msg) g).2 k e (by simpa using hk) hrest hv
    have hstep : Redis.subscribeLoop cb (msg :: rest) w g =
        Redis.subscribeLoop cb rest (w.record (Call.callback (toMessage msg)))
          (cb (toMessage msg) g).2 := by
      rw [subscribeLoop_cons, h0]
    rw [hstep, ih]
    simp [World.record, stateAfter_cons]

/-- Whatever the callback answers, the loop hands it a prefix of the messages, in
order, records exactly those invocations and leaves the environment alone. -/
theorem subscribeLoop_prefix (cb : Message → γ → Option GoError × γ) :
    ∀ (inbound : List RedisMessage) (w : World σ κ π) (g : γ),
      ∃ k, k ≤ inbound.length ∧
        (Redis.subscribeLoop cb inbound w g).2.1 =
          { calls := w.calls ++ ((inbound.map toMessage).take k).map Call.callback,
            env := w.env } ∧
        (Redis.subscribeLoop cb inbound w g).2.2 =
          stateAfter cb ((inbound.map toMessage).take k) g
  | [], w, g => ⟨0, by simp [Redis.subscribeLoop, stateAfter]⟩
  | msg :: rest, w, g => by
    cases h0 : (cb (toMessage msg) g).1 with
    | some err =>
      refine ⟨1, by simp, ?_, ?_⟩
      · rw [subscribeLoop_cons, h0]
        simp [World.record]
      · rw [subscribeLoop_cons, h0]
        simp [stateAfter]
    | none =>
      obtain ⟨k, hk, hw, hg⟩ := subscribeLoop_prefix cb rest
        (w.record (Call.callback (toMessage msg))) (cb (toMessage msg) g).2
      refine ⟨k + 1, by simpa using hk, ?_, ?_⟩
      · rw [subscribeLoop_cons, h0]
        simp only [hw]
        simp [World.record]
      · rw [subscribeLoop_cons, h0]
        simp only [hg]
        simp [stateAfter_cons]

theorem releases_callbacks (handled : List Message) :
    releases (handled.map (Call.callback : Message → Call κ π)) = 0 := by
  induction handled with
  | nil => rfl
  | cons m ms ih =>
    simp only [releases, List.map_cons, List.countP_cons] at ih ⊢
    simp [ih, Call.isClose]

theorem Subscribe_some (L : Lib σ κ π) (r : Redis κ) (w : World σ κ π) (c : κ)
    (channel : String) (cb : Message → γ → Option GoError × γ) (g : γ)
    (hc : r.Client = some c) :
    r.Subscribe L channel cb w g =
      (Outcome.returned
        (Redis.subscribeLoop cb (L.Channel (L.Subscribe c channel w.env).1
            (L.Subscribe c channel w.env).2).1
          { calls := w.calls ++ [Call.Subscribe c channel,
              Call.Channel (L.Subscribe c channel w.env).1],
            env := (L.Channel (L.Subscribe c channel w.env).1
              (L.Subscribe c channel w.env).2).2 } g).1,
        { calls := (Redis.subscribeLoop cb (L.Channel (L.Subscribe c channel w.env).1
            (L.Subscribe c channel w.env).2).1
          { calls := w.calls ++ [Call.Subscribe c channel,
              Call.Channel (L.Subscribe c channel w.env).1],
            env := (L.Channel (L.Subscribe c channel w.env).1
              (L.Subscribe c channel w.env).2).2 } g).2.1.calls ++
            [Call.Close (L.Subscribe c channel w.env).1],
          env := (L.Close (L.Subscribe c channel w.env).1
            (Redis.subscribeLoop cb (L.Channel (L.Subscribe c channel w.env).1
            (L.Subscribe c channel w.env).2).1
          { calls := w.calls ++ [Call.Subscribe c channel,
              Call.Channel (L.Subscribe c channel w.env).1],
            env := (L.Channel (L.Subscribe c channel w.env).1
              (L.Subscribe c channel w.env).2).2 } g).2.1.env).2 },
        (Redis.subscribeLoop cb (L.Channel (L.Subscribe c channel w.env).1
            (L.Subscribe c channel w.env).2).1
          { calls := w.calls ++ [Call.Subscribe c channel,
              Call.Channel (L.Subscribe c channel w.env).1],
            env := (L.Channel (L.Subscribe c channel w.env).1
              (L.Subscribe c channel w.env).2).2 } g).2.2) := by
  simp [Redis.Subscribe, hc, World.call]

theorem releases_append (xs ys : List (Call κ π)) :
    releases (xs ++ ys) = releases xs + releases ys := by
  simp [releases, List.countP_append]

/-- C4: `Subscribe` dispatches sequentially and stops at the first callback error.
With a handle `c`, a subscription `p` and the messages `inbound` delivered before
the channel closes: each message is handed to the callback as a `Message` with the
same Channel and Payload; if the callback never reports an error, `Subscribe`
returns no error and the callback has been invoked once per message, in the order
received; if the callback first reports an error `e` at (0-based) index `k`,
`Subscribe` returns `e` and the callback has been invoked, once each and in order,
on exactly the first `k + 1` messages and on none after them. -/
theorem Subscribe_dispatch (L : Lib σ κ π) (r : Redis κ) (w : World σ κ π) (c : κ)
    (channel : String) (cb : Message → γ → Option GoError × γ) (g : γ)
    (p : π) (envS envC : σ) (inbound : List RedisMessage)
    (hc : r.Client = some c)
    (hsub : L.Subscribe c channel w.env = (p, envS))
    (hch : L.Channel p envS = (inbound, envC)) :
    (∀ m, m ∈ inbound →
      (toMessage m).Channel = m.Channel ∧ (toMessage m).Payload = m.Payload) ∧
    ((∀ i, i < inbound.length → verdict cb (inbound.map toMessage) g i = none) →
      (r.Subscribe L channel cb w g).1 = Outcome.returned none ∧
      (r.Subscribe L channel cb w g).2.1.calls =
        w.calls ++ [Call.Subscribe c channel, Call.Channel p] ++
          (inbound.map toMessage).map Call.callback ++ [Call.Close p] ∧
      (r.Subscribe L channel cb w g).2.2 = stateAfter cb (inbound.map toMessage) g) ∧
    (∀ k e, k < inbound.length →
      (∀ i, i < k → verdict cb (inbound.map toMessage) g i = none) →
      verdict cb (inbound.map toMessage) g k = some e →
      (r.Subscribe L channel cb w g).1 = Outcome.returned (some e) ∧
      (r.Subscribe L channel cb w g).2.1.calls =
        w.calls ++ [Call.Subscribe c channel, Call.Channel p] ++
          ((inbound.map toMessage).take (k + 1)).map Call.callback ++ [Call.Close p] ∧
      (r.Subscribe L channel cb w g).2.2 =
        stateAfter cb ((inbound.map toMessage).take (k + 1)) g) := by
  refine ⟨fun m _ => ⟨rfl, rfl⟩, fun hall => ?_, fun k e hk hbefore hv => ?_⟩
  · rw [Subscribe_some L r w c channel cb g hc, hsub, hch]
    rw [subscribeLoop_all cb inbound _ g (by simpa using hall)]
    simp
  · rw [Subscribe_some L r w c channel cb g hc, hsub, hch]
    rw [subscribeLoop_stop cb inbound _ g k e (by simpa using hk) hbefore hv]
    simp

/-- Witness for C4 on the reference store: the callback reports an error on the
second of three messages; it is invoked on the first two and `Subscribe` returns
that error. -/
theorem Subscribe_dispatch_witness :
    (connected.Subscribe memLib "news" stopHandler (World.start newsStore) 0).1
        = Outcome.returned (some (GoError.New "stop")) ∧
    (connected.Subscribe memLib "news" stopHandler (World.start newsStore) 0).2.1.calls =
        [] ++ [Call.Subscribe 0 "news", Call.Channel "news"] ++
          [Call.callback { Channel := "news", Payload := "a" },
           Call.callback { Channel := "news", Payload := "stop" }] ++
          [Call.Close "news"] ∧
    (connected.Subscribe memLib "news" stopHandler (World.start newsStore) 0).2.2 = 2 :=
  (Subscribe_dispatch memLib connected (World.start newsStore) 0 "news" stopHandler 0
      "news" (memLib.Subscribe 0 "news" newsStore).2 (memLib.Subscribe 0 "news" newsStore).2
      (newsStore.feed "news") rfl rfl rfl).2.2 1
    (GoError.New "stop") (by decide) (by decide) (by decide)

/-- C5: `Subscribe` always releases its subscription.  With a handle `c`, the
subscription `p` the call opened, and `inbound` the messages its channel delivers
before it closes (the environment being `envC` once the channel is taken): for
every callback, the call hands the callback a prefix of the messages, and then
performs the library's `Close p`, once and as its last step: the world it leaves
is the trace "Subscribe, Channel, those callback invocations, Close p" over the
environment `L.Close p` produces from `envC`, so one release more has happened
than before the call.  This holds on both ways out: on the closed channel (the
callback never reports an error, `Subscribe` returns nil) and on a callback error
(first reported at index `k`, `Subscribe` returns it). -/
theorem Subscribe_releases (L : Lib σ κ π) (r : Redis κ) (w : World σ κ π) (c : κ)
    (channel : String) (cb : Message → γ → Option GoError × γ) (g : γ)
    (p : π) (envS envC : σ) (inbound : List RedisMessage)
    (hc : r.Client = some c)
    (hsub : L.Subscribe c channel w.env = (p, envS))
    (hch : L.Channel p envS = (inbound, envC)) :
    (∃ k, k ≤ inbound.length ∧
      (r.Subscribe L channel cb w g).2.1 =
        { calls := w.calls ++ [Call.Subscribe c channel, Call.Channel p] ++
            ((inbound.map toMessage).take k).map Call.callback ++ [Call.Close p],
          env := (L.Close p envC).2 } ∧
      (r.Subscribe L channel cb w g).2.2 =
        stateAfter cb ((inbound.map toMessage).take k) g) ∧
    releases (r.Subscribe L channel cb w g).2.1.calls = releases w.calls + 1 ∧
    ((∀ i, i < inbound.length → verdict cb (inbound.map toMessage) g i = none) →
      (r.Subscribe L channel cb w g).1 = Outcome.returned none ∧
      (r.Subscribe L channel cb w g).2.1 =
        { calls := w.calls ++ [Call.Subscribe c channel, Call.Channel p] ++
            (inbound.map toMessage).map Call.callback ++ [Call.Close p],
          env := (L.Close p envC).2 }) ∧
    (∀ k e, k < inbound.length →
      (∀ i, i < k → verdict cb (inbound.map toMessage) g i = none) →
      verdict cb (inbound.map toMessage) g k = some e →
      (r.Subscribe L channel cb w g).1 = Outcome.returned (some e) ∧
      (r.Subscribe L channel cb w g).2.1 =
        { calls := w.calls ++ [Call.Subscribe c channel, Call.Channel p] ++
            ((inbound.map toMessage).take (k + 1)).map Call.callback ++ [Call.Close p],
          env := (L.Close p envC).2 }) := by
  obtain ⟨k, hk, hw, hg⟩ := subscribeLoop_prefix cb inbound
    ({ calls := w.calls ++ [Call.Subscribe c channel, Call.Channel p],
       env := envC } : World σ κ π) g
  refine ⟨⟨k, hk, ?_, ?_⟩, ?_, fun hall => ?_, fun k e hk hbefore hv => ?_⟩
  · rw [Subscribe_some L r w c channel cb g hc, hsub, hch]
    simp only [hw]
  · rw [Subscribe_some L r w c channel cb g hc, hsub, hch]
    simp only [hg]
  · rw [Subscribe_some L r w c channel cb g hc, hsub, hch]
    simp only [hw]
    simp only [releases_append, releases_callbacks]
    simp [releases, Call.isClose]
  · rw [Subscribe_some L r w c channel cb g hc, hsub, hch]
    rw [subscribeLoop_all cb inbound _ g (by simpa using hall)]
    simp
  · rw [Subscribe_some L r w c channel cb g hc, hsub, hch]
    rw [subscribeLoop_stop cb inbound _ g k e (by simpa using hk) hbefore hv]
    simp

/-- Witness for C5 on the reference store, on the callback-error way out: the
callback reports an error on the second of three messages, `Subscribe` returns it,
and the store's `Close` has been applied, so the subscription opened on "news" is
open no more. -/
theorem Subscribe_releases_witness :
    ((connected.Subscribe memLib "news" stopHandler (World.start newsStore) 0).1
        = Outcome.returned (some (GoError.New "stop")) ∧
      (connected.Subscribe memLib "news" stopHandler (World.start newsStore) 0).2.1 =
        { calls := [] ++ [Call.Subscribe 0 "news", Call.Channel "news"] ++
            [Call.callback { Channel := "news", Payload := "a" },
             Call.callback { Channel := "news", Payload := "stop" }] ++
            [Call.Close "news"],
          env := (memLib.Close "news" (memLib.Subscribe 0 "news" newsStore).2).2 }) ∧
    (memLib.Subscribe 0 "news" newsStore).2.subscriptions = ["news"] ∧
    (connected.Subscribe memLib "news" stopHandler
        (World.start newsStore) 0).2.1.env.subscriptions = [] :=
  ⟨(Subscribe_releases memLib connected (World.start newsStore) 0 "news" stopHandler 0
      "news" (memLib.Subscribe 0 "news" newsStore).2 (memLib.Subscribe 0 "news" newsStore).2
      (newsStore.feed "news") rfl rfl rfl).2.2.2 1
    (GoError.New "stop") (by decide) (by decide) (by decide), rfl, by decide⟩

/-! ## Hash operations against the reference store -/

theorem fieldGet_fieldSet (fields : List (String × String)) (f v : String) :
    fieldGet (fieldSet fields f v) f = some v := by
  induction fields with
  | nil => simp [fieldSet, fieldGet]
  | cons p rest ih =>
    obtain ⟨f', v'⟩ := p
    by_cases h : f' = f
    · simp [fieldSet, fieldGet, h]
    · simp [fieldSet, fieldGet, h, ih]

/-- C8: `HTruncate` removes the whole hash in one key deletion.  For every library,
driver, key and world, `HTruncate` is the very call `Del` is: with a handle `c` it
issues the single store command `Del c key` and returns that command's count (or
its error).  On the reference store (nothing else mutates it), a successful
`HTruncate` returns 0 or 1, and right after it `HLen` of the key returns 0 and
`HExists` returns false for every field. -/
theorem HTruncate_removes_hash (L : Lib σ κ π) (r : Redis κ) (w : World σ κ π)
    (rs : Redis Nat) (ws : World Store Nat String) (key : String) :
    r.HTruncate L key w = r.Del L key w ∧
    (∀ c, r.Client = some c →
      (r.HTruncate L key w).2 =
        { calls := w.calls ++ [Call.Del c key], env := (L.Del c key w.env).2 } ∧
      ((L.Del c key w.env).1.err = none →
        (r.HTruncate L key w).1 = Outcome.returned ((L.Del c key w.env).1.val, none))) ∧
    (∀ n, (rs.HTruncate memLib key ws).1 = Outcome.returned (n, none) →
      (n = 0 ∨ n = 1) ∧
      (rs.HLen memLib key (rs.HTruncate memLib key ws).2).1 = Outcome.returned (0, none) ∧
      ∀ f, (rs.HExists memLib key f (rs.HTruncate memLib key ws).2).1
        = Outcome.returned (false, none)) := by
  refine ⟨rfl, fun c hc => ?_, fun n hn => ?_⟩
  · cases he : (L.Del c key w.env).1.err <;>
      simp [Redis.HTruncate, hc, World.call, he]
  · cases hc : rs.Client with
    | none => simp [Redis.HTruncate, hc] at hn
    | some c =>
      cases hup : ws.env.up with
      | false =>
        simp [Redis.HTruncate, hc, World.call, memLib, hup, unreachableReply] at hn
      | true =>
        cases hd : ws.env.data key with
        | none =>
          simp [Redis.HTruncate, hc, World.call, memLib, hup, hd] at hn
          simp [Redis.HTruncate, Redis.HLen, Redis.HExists, hc, World.call, memLib, hup, hd,
            ← hn]
        | some entry =>
          simp [Redis.HTruncate, hc, World.call, memLib, hup, hd] at hn
          simp [Redis.HTruncate, Redis.HLen, Redis.HExists, hc, World.call, memLib, hup, hd,
            ← hn, Store.put]

/-- Witness for C8 on the reference store: truncating an existing hash removes one
key, after which the hash has no field. -/
theorem HTruncate_removes_hash_witness :
    (connected.HTruncate memLib "h" (World.start hashStore)).1
      = Outcome.returned (1, none) ∧
    (connected.HLen memLib "h"
        (connected.HTruncate memLib "h" (World.start hashStore)).2).1
      = Outcome.returned (0, none) ∧
    ∀ f, (connected.HExists memLib "h" f
        (connected.HTruncate memLib "h" (World.start hashStore)).2).1
      = Outcome.returned (false, none) :=
  ⟨rfl,
   ((HTruncate_removes_hash memLib connected (World.start hashStore) connected
      (World.start hashStore) "h").2.2 1 rfl).2⟩

/-- C9: `HSet` preserves the store's created/updated distinction.  For every
library, with a handle `c`, a successful `HSet` returns the store's boolean as it
is.  On the reference store (nothing else mutates it), a successful
`HSet key f v1` returns true when `f` was not present in the hash before the call
and false when it was, and `HGet key f` right after it returns `v1` with no error. -/
theorem HSet_created_flag (L : Lib σ κ π) (r : Redis κ) (w : World σ κ π)
    (rs : Redis Nat) (ws : World Store Nat String) (key f v1 : String) :
    (∀ c, r.Client = some c → (L.HSet c key f v1 w.env).1.err = none →
      r.HSet L key f v1 w =
        (Outcome.returned ((L.HSet c key f v1 w.env).1.val, none),
          { calls := w.calls ++ [Call.HSet c key f v1],
            env := (L.HSet c key f v1 w.env).2 })) ∧
    (∀ created, (rs.HSet memLib key f v1 ws).1 = Outcome.returned (created, none) →
      (ws.env.hasField key f = false → created = true) ∧
      (ws.env.hasField key f = true → created = false) ∧
      (rs.HGet memLib key f (rs.HSet memLib key f v1 ws).2).1
        = Outcome.returned (v1, none)) := by
  refine ⟨fun c hc he => ?_, fun created hs => ?_⟩
  · simp [Redis.HSet, hc, World.call, he]
  · cases hc : rs.Client with
    | none => simp [Redis.HSet, hc] at hs
    | some c =>
      cases hup : ws.env.up with
      | false => simp [Redis.HSet, hc, World.call, memLib, hup, unreachableReply] at hs
      | true =>
        cases hd : ws.env.data key with
        | none =>
          simp [Redis.HSet, hc, World.call, memLib, hup, hd] at hs
          simp [Redis.HSet, Redis.HGet, hc, World.call, memLib, hup, hd, ← hs,
            Store.put, Store.hasField, fieldGet]
        | some entry =>
          cases entry with
          | str v => simp [Redis.HSet, hc, World.call, memLib, hup, hd, wrongType] at hs
          | hash fields =>
            simp [Redis.HSet, hc, World.call, memLib, hup, hd] at hs
            simp [Redis.HSet, Redis.HGet, hc, World.call, memLib, hup, hd, ← hs,
              Store.put, Store.hasField, fieldGet_fieldSet]

/-- Witness for C9 on the reference store: setting an existing field answers false,
and the new value is read back. -/
theorem HSet_created_flag_witness :
    hashStore.hasField "h" "f" = true ∧
    (connected.HSet memLib "h" "f" "new" (World.start hashStore)).1
      = Outcome.returned (false, none) ∧
    (connected.HGet memLib "h" "f"
        (connected.HSet memLib "h" "f" "new" (World.start hashStore)).2).1
      = Outcome.returned ("new", none) :=
  ⟨rfl, rfl,
   ((HSet_created_flag memLib connected (World.start hashStore) connected
      (World.start hashStore) "h" "f" "new").2 false rfl).2.2⟩

end Helmet
